import Mathlib

/-!
Shallow embedding of the taroize template-resolution module
(the excerpt containing `buildTemplateName`, `getSrcRelPath`, `preParseTemplate`,
`parseTemplate`, `getWxmlSource` and `parseModule`) together with theorems
checking its natural-language specification against the code.

Modelling conventions:
* JS strings are `String` or `List Char` (JS `for ... of` iterates code points,
  which matches `String.data`).
* JS `Set` objects are insertion-ordered duplicate-free lists.
* The recursion of `buildTemplateName` is not structurally decreasing (and in
  fact diverges on some inputs), so it is embedded as a fuel-indexed function
  returning `Option`; `none` means the recursion did not finish.
* External collaborators that are not part of the sources (the file system,
  `setting.rootPath`, node path utilities, `pascalName` from `./utils`, the
  markup parser `parseWXML` and the `WXS` record from `./wxml`) are modelled
  from the spec, as explicit environment records or small definitions marked
  `Modelled from the spec`.
-/

/-- JS `isNumeric` from the source (`!isNaN(parseFloat(n)) && isFinite(n)`).
It is only ever applied to a single character, for which it holds exactly for
the ASCII digits `0`-`9`. -/
def isNumeric (c : Char) : Bool := 48 ≤ c.toNat && c.toNat ≤ 57

/-- The source array `NumberWords = ['z','b','c','d','e','f','g','h','i','j','k']`. -/
def NumberWords : List Char := ['z', 'b', 'c', 'd', 'e', 'f', 'g', 'h', 'i', 'j', 'k']

/-- One step of the character post-processing loop of `buildTemplateName`:
a numeric character indexes `NumberWords` by its digit value (JS coerces the
one-digit string used as an array index), every other character is kept. -/
def replaceNumeric (c : Char) : Char :=
  if isNumeric c then NumberWords.getD (c.toNat - 48) c else c

/-- Case-insensitive match of the letter `w`, for the regex `/wx/i`. -/
def isWChar (c : Char) : Bool := c = 'w' || c = 'W'

/-- Case-insensitive match of the letter `x`, for the regex `/wx/i`. -/
def isXChar (c : Char) : Bool := c = 'x' || c = 'X'

/-- The test `/wx/i.test(name)`: some position of the character list starts
with `wx`, case-insensitively. -/
def hasWx : List Char → Bool
  | [] => false
  | [_] => false
  | c1 :: c2 :: rest => (isWChar c1 && isXChar c2) || hasWx (c2 :: rest)

/-- Splits a character list on `-` separators (helper for `pascalName`). -/
def splitOnDash : List Char → List (List Char)
  | [] => [[]]
  | c :: t =>
    match splitOnDash t with
    | [] => [[]]
    | w :: ws => if c = '-' then [] :: w :: ws else (c :: w) :: ws

/-- Capitalizes the first character of a word (helper for `pascalName`). -/
def capWord : List Char → List Char
  | [] => []
  | c :: t => c.toUpper :: t

/-- Modelled from the spec: `pascalName` is imported from `./utils`, which is
not among the sources. Per the spec it performs "case transformation
(Pascal-case by words split on separators)", modelled here as splitting on the
hyphen separator and capitalizing the first character of each word. -/
def pascalName (l : List Char) : List Char :=
  ((splitOnDash l).map capWord).foldr (· ++ ·) []

/-- The suffix `-tmpl` that `buildTemplateName` appends before the case
transformation. -/
def tmplSuffix : List Char := ['-', 't', 'm', 'p', 'l']

/-- The characters of the literal `taro-` prepended by the `wx` rewrite rule. -/
def taroDash : List Char := ['t', 'a', 'r', 'o', '-']

/-- The non-recursive part of `buildTemplateName`: append `-tmpl`, apply the
case transformation unless `pascal` is false, then replace numeric characters
through `NumberWords`. -/
def templBody (name : List Char) (pascal : Bool) : List Char :=
  let words := if pascal then pascalName (name ++ tmplSuffix) else name ++ tmplSuffix
  words.map replaceNumeric

/-- Fuel-indexed model of `buildTemplateName`. The JS recursion
`if (/wx/i.test(name)) return buildTemplateName('taro-' + name.slice(2))`
is not structurally decreasing (and diverges on some inputs), so it is
embedded with explicit fuel; `none` means the recursion did not finish within
`fuel` unfoldings. The recursive call uses the default `pascal = true`,
exactly as in the source. -/
def buildTemplateNameF : Nat → List Char → Bool → Option (List Char)
  | 0, _, _ => none
  | fuel + 1, name, pascal =>
    if hasWx name then buildTemplateNameF fuel (taroDash ++ name.drop 2) true
    else some (templBody name pascal)

theorem hasWx_cons_of_tail {t : List Char} (c : Char) (h : hasWx t = true) :
    hasWx (c :: t) = true := by
  cases t with
  | nil => simp [hasWx] at h
  | cons x xs => simp [hasWx, h]

theorem hasWx_cons_notW {t : List Char} {c : Char} (hc : isWChar c = false) :
    hasWx (c :: t) = hasWx t := by
  cases t with
  | nil => simp [hasWx]
  | cons x xs => simp [hasWx, hc]

theorem hasWx_append_of_right {r : List Char} (p : List Char) (h : hasWx r = true) :
    hasWx (p ++ r) = true := by
  induction p with
  | nil => simpa using h
  | cons c cs ih => exact hasWx_cons_of_tail c ih

/-- The key divergence fact: if `wx` occurs (case-insensitively) at an index
of at least 2, the rewrite `name ↦ "taro-" ++ name.drop 2` keeps such an
occurrence forever, so the recursion never finishes, for any amount of fuel. -/
theorem buildTemplateNameF_none_of_deep :
    ∀ (fuel : Nat) (l : List Char) (b : Bool), hasWx (l.drop 2) = true →
      buildTemplateNameF fuel l b = none := by
  intro fuel
  induction fuel with
  | zero => intro l b _; rfl
  | succ n ih =>
    intro l b h
    have hl : hasWx l = true := by
      have h2 := hasWx_append_of_right (l.take 2) h
      rwa [List.take_append_drop] at h2
    simp only [buildTemplateNameF, hl, if_true]
    apply ih
    have e : (taroDash ++ l.drop 2).drop 2 = ['r', 'o', '-'] ++ l.drop 2 := rfl
    rw [e]
    exact hasWx_append_of_right _ h

/-- C1 counterexample: on the input `"aawx"` (which matches `/wx/i` with the
occurrence starting at index 2) the recursion of `buildTemplateName` never
reaches an input not matching `/wx/i`: the function returns no string for any
amount of fuel, refuting "terminates and returns a string for every input". -/
theorem buildTemplateName_diverges_on_aawx :
    ¬ ∃ n : Nat, (buildTemplateNameF n ['a', 'a', 'w', 'x'] true).isSome = true := by
  rintro ⟨n, hn⟩
  rw [buildTemplateNameF_none_of_deep n ['a', 'a', 'w', 'x'] true (by decide)] at hn
  simp at hn

/-- C1 (amended): `buildTemplateName` terminates and returns a string exactly
for those inputs in which no case-insensitive occurrence of `wx` starts at
character index 2 or later (two steps of the recursion always suffice); when
such an occurrence exists, each recursion step `name ↦ "taro-" + name.slice(2)`
shifts it three positions to the right and the recursion never terminates. -/
theorem buildTemplateName_terminates_iff (l : List Char) (b : Bool) :
    (∃ n : Nat, (buildTemplateNameF n l b).isSome = true) ↔ hasWx (l.drop 2) = false := by
  constructor
  · rintro ⟨n, hn⟩
    cases hdeep : hasWx (l.drop 2) with
    | false => rfl
    | true =>
      rw [buildTemplateNameF_none_of_deep n l b hdeep] at hn
      simp at hn
  · intro h
    refine ⟨2, ?_⟩
    cases hw : hasWx l with
    | true =>
      have h5 : hasWx (taroDash ++ l.drop 2) = false := by
        have e : taroDash ++ l.drop 2 = 't' :: 'a' :: 'r' :: 'o' :: '-' :: l.drop 2 := rfl
        rw [e, hasWx_cons_notW (by decide), hasWx_cons_notW (by decide),
          hasWx_cons_notW (by decide), hasWx_cons_notW (by decide),
          hasWx_cons_notW (by decide)]
        exact h
      simp only [buildTemplateNameF, hw, if_true, h5, if_false, Bool.false_eq_true,
        Option.isSome_some]
    | false =>
      simp only [buildTemplateNameF, hw, if_false, Bool.false_eq_true, Option.isSome_some]

theorem numberWords_not_numeric : ∀ x ∈ NumberWords, isNumeric x = false := by decide

theorem replaceNumeric_not_numeric (c : Char) : isNumeric (replaceNumeric c) = false := by
  unfold replaceNumeric
  cases hc : isNumeric c with
  | false => simpa using hc
  | true =>
    rw [if_pos rfl]
    apply numberWords_not_numeric
    have hlen : c.toNat - 48 < NumberWords.length := by
      simp only [isNumeric, Bool.and_eq_true, decide_eq_true_eq] at hc
      simp only [NumberWords, List.length_cons, List.length_nil]
      omega
    rw [List.getD_eq_getElem _ _ hlen]
    exact List.getElem_mem hlen

/-- C2: whenever `buildTemplateName` returns a string, that string contains no
character that independently parses as a finite number: the post-processing
loop maps every numeric character of the case-transformed intermediate string
to a letter of `NumberWords` and keeps every other character, and none of the
letters `z,b,c,d,e,f,g,h,i,j,k` is numeric. -/
theorem buildTemplateName_no_numeric :
    ∀ (fuel : Nat) (l : List Char) (b : Bool) (r : List Char),
      buildTemplateNameF fuel l b = some r → r.all (fun c => !(isNumeric c)) = true := by
  intro fuel
  induction fuel with
  | zero => intro l b r h; exact absurd h (by simp [buildTemplateNameF])
  | succ n ih =>
    intro l b r h
    rw [buildTemplateNameF] at h
    cases hw : hasWx l with
    | true =>
      rw [if_pos hw] at h
      exact ih _ _ _ h
    | false =>
      rw [if_neg (by simp [hw])] at h
      rw [Option.some.injEq] at h
      subst h
      simp only [templBody, List.all_eq_true, List.mem_map]
      rintro c ⟨c0, _, rfl⟩
      simp [replaceNumeric_not_numeric]

/-- Witness for C2 at the concrete input `"a1"`: the returned name is
`"AbTmpl"`, which contains no numeric character. -/
theorem buildTemplateName_no_numeric_witness :
    (['A', 'b', 'T', 'm', 'p', 'l'].all (fun c => !(isNumeric c))) = true :=
  buildTemplateName_no_numeric 1 ['a', '1'] true ['A', 'b', 'T', 'm', 'p', 'l'] (by decide)

/-- Source positions: the code reads `path.node?.position?.start` and builds
`{ col: column, row: line }`, defaulting to zero when unavailable. -/
structure Position where
  row : Nat
  col : Nat
deriving DecidableEq

/-- Default used for a missing position: `{ line: 0, column: 0 }`. -/
def posD (p : Option Position) : Position := p.getD ⟨0, 0⟩

/-- Babel expressions, restricted to the constructors the excerpt inspects
(`isStringLiteral`, `isConditional`, and member expressions on `this` with an
identifier property); every other expression form is collapsed into `other`. -/
inductive Expr where
  | stringLit (s : String)
  | conditional (test consequent alternate : Expr)
  | identExpr (name : String)
  | thisMember (prop : String)
  | other
deriving DecidableEq

/-- Holds exactly for `t.isStringLiteral`. -/
def Expr.isStringLit : Expr → Bool
  | .stringLit _ => true
  | _ => false

/-- Holds exactly for `t.isConditional`. -/
def Expr.isCond : Expr → Bool
  | .conditional _ _ _ => true
  | _ => false

/-- A babel `JSXAttribute` value: `null` (no value), a string literal, an
expression container, or a JSX element/fragment value. -/
inductive AttrValue where
  | null
  | strLit (s : String)
  | exprContainer (e : Expr)
  | elementVal
deriving DecidableEq

/-- Holds exactly when the attribute value is a string literal. -/
def AttrValue.isStrLit : AttrValue → Bool
  | .strLit _ => true
  | _ => false

/-- A babel `JSXAttribute` name: plain `JSXIdentifier` or `JSXNamespacedName`. -/
inductive AttrName where
  | ident (s : String)
  | namespaced (nsp nm : String)
deriving DecidableEq

/-- An entry of a JSX opening element's attribute list: an attribute or a
spread attribute. -/
inductive JSXAttrEntry where
  | attr (name : AttrName) (value : AttrValue)
  | spread (arg : Expr)
deriving DecidableEq

/-- The attribute lookup used throughout the excerpt
(`attrs.find(attr => t.isJSXAttribute(attr) && t.isJSXIdentifier(attr.name) &&
attr.node.name.name === target)`): the first entry that is a plain attribute
whose `JSXIdentifier` name equals `target`. -/
def findAttrPair (attrs : List JSXAttrEntry) (target : String) :
    Option (AttrName × AttrValue) :=
  attrs.findSome? fun a =>
    match a with
    | .attr (AttrName.ident s) v => if s = target then some (AttrName.ident s, v) else none
    | _ => none

/-- The markup AST the resolver operates on: elements with attributes and
children, expression-container children and text children. `pos` models the
optional `position.start` of the original markup node; the elements created by
the rewrite have no position. -/
inductive JSXTree where
  | elem (tagName : String) (attrs : List JSXAttrEntry) (selfClosing : Bool)
      (pos : Option Position) (children : List JSXTree)
  | exprChild (e : Expr)
  | text (s : String)

/-- Helper for JS `String.prototype.includes` on character lists. -/
def includesAux (needle : List Char) : List Char → Bool
  | [] => needle.isEmpty
  | c :: t => needle.isPrefixOf (c :: t) || includesAux needle t

/-- JS `hay.includes(needle)`: the needle occurs as a contiguous substring. -/
def jsIncludes (hay needle : String) : Bool := includesAux needle.data hay.data

/-- Modelled from the spec: the `WXS` record type is imported from `./wxml`,
which is not among the sources; per the spec it is "a sequence of known
script-module records (`module` name, source)". -/
structure WXS where
  module : String
  src : String
deriving DecidableEq

/-- JS `Set.prototype.add` on an insertion-ordered duplicate-free list. -/
def addSet {α : Type} [DecidableEq α] (l : List α) (a : α) : List α :=
  if a ∈ l then l else l ++ [a]

/-- One step of the inner `wxses.forEach` of the definition branch: when
`wxsId.module.includes(refId)` the module is added to `usedWxses` and the
reference is deleted from `refIds`. -/
def wxsStep (r : String) (st : List String × List WXS) (w : WXS) : List String × List WXS :=
  if jsIncludes w.module r then (st.1.erase r, addSet st.2 w) else st

/-- The WXS partition of the definition branch (`refdata.forEach(refId =>
wxses.forEach(wxsId => ...))`). The outer loop iterates over the original
reference set (only the currently visited element is ever deleted, so every
original element is visited); the result is the surviving `refIds` paired with
the collected `usedWxses`. -/
def partitionWxs (refIds : List String) (wxses : List WXS) : List String × List WXS :=
  refIds.foldl (fun st r => wxses.foldl (wxsStep r) st) (refIds, [])

/-- The loop-reference pruning of the definition branch:
`firstId = Array.from(refIds)[0]` and then deletion of every id that is a loop
identifier other than `firstId`. Deleting the currently visited element does
not affect a JS `Set.forEach` iteration, so the net effect is a filter. -/
def pruneLoopRefs (refIds loopIds : List String) : List String :=
  match refIds with
  | [] => []
  | first :: rest =>
    (first :: rest).filter fun id => !(loopIds.contains id && id != first)

/-- Outcome of `parseTemplate`. `defn` carries the returned record of the
definition branch (`name` and `tmplName` of the returned object, the
`usedWxses` set, and the surviving reference ids that parameterize the built
render method); `replaced` and `replacedTernary` describe the in-place
rewrites of the invocation branches (the node is replaced and `undefined` is
returned); `noop` means `undefined` is returned with no mutation; `thrown`
is an `IReportError` with the given error-kind tag and position; `thrownPlain`
is the plain `Error` of the definition branch; `fuelOut` marks exhaustion of
the fuel of the embedded `buildTemplateName` recursion. -/
inductive ParseTplResult where
  | defn (name : String) (tmplName : String) (usedWxses : List WXS) (refIds : List String)
  | replaced (node : JSXTree)
  | replacedTernary (test : Expr) (consequent alternate : String) (dataAttrs : List JSXAttrEntry)
  | noop
  | thrown (errName : String) (pos : Position)
  | thrownPlain (msg : String)
  | fuelOut

/-- The attribute list carried to a rewritten invocation element: the original
`data` attribute when present, nothing otherwise. -/
def dataAttrList (attrs : List JSXAttrEntry) : List JSXAttrEntry :=
  match findAttrPair attrs "data" with
  | some (n, v) => [JSXAttrEntry.attr n v]
  | none => []

/-- The self-closing element built by the literal invocation rewrite
(`t.jSXElement(t.jSXOpeningElement(t.jSXIdentifier(className), attributes),
..., [], true)`). -/
def mkInvocationElem (className : String) (attrs : List JSXAttrEntry) : JSXTree :=
  JSXTree.elem className attrs true none []

/-- Model of `parseTemplate(path, dirPath, wxses)`. `hasContainer` models
`path.container`; `attrs`/`pos` are the opening element's attributes and the
node's source position. The subtree traversal
`path.traverse(createWxmlVisitor(loopIds, refIds, ...))` is an external
collaborator (`createWxmlVisitor` is not among the sources), so the collected
`refIds` and `loopIds` accumulators are taken as inputs; the class/render AST
construction (`buildBlockElement`, `buildRender`, also external) is abstracted
by recording the surviving reference ids in the `defn` outcome. `fuel` feeds
the embedded `buildTemplateName` recursion. -/
def parseTemplate (hasContainer : Bool) (attrs : List JSXAttrEntry) (pos : Option Position)
    (refIds loopIds : List String) (wxses : List WXS) (fuel : Nat) : ParseTplResult :=
  if !hasContainer then .noop
  else
    match findAttrPair attrs "name" with
    | some (_, AttrValue.strLit tmplName) =>
      match buildTemplateNameF fuel tmplName.data true with
      | none => .fuelOut
      | some cn =>
        let part := partitionWxs refIds wxses
        .defn (String.mk cn) tmplName part.2 (pruneLoopRefs part.1 loopIds)
    | some (_, _) => .thrownPlain "template 的 `name` 属性只能是字符串"
    | none =>
      match findAttrPair attrs "is" with
      | none => .thrown "TemplateMissingIsNameError" (posD pos)
      | some (_, v) =>
        match v with
        | AttrValue.null => .thrown "TemplateIsAttributeEmptyError" (posD pos)
        | AttrValue.strLit lit =>
          match buildTemplateNameF fuel lit.data true with
          | none => .fuelOut
          | some cn => .replaced (mkInvocationElem (String.mk cn) (dataAttrList attrs))
        | AttrValue.exprContainer e =>
          match e with
          | Expr.stringLit lit =>
            match buildTemplateNameF fuel lit.data true with
            | none => .fuelOut
            | some cn => .replaced (mkInvocationElem (String.mk cn) (dataAttrList attrs))
          | Expr.conditional tst csq alt =>
            match csq, alt with
            | Expr.stringLit cs, Expr.stringLit als =>
              .replacedTernary tst cs als (dataAttrList attrs)
            | _, _ => .thrown "TemplateIsAttributeTypeMismatchError" (posD pos)
          | _ => .noop
        | AttrValue.elementVal => .noop

theorem parseTemplate_defn_eq (attrs : List JSXAttrEntry) (pos : Option Position)
    (refIds loopIds : List String) (wxses : List WXS) (fuel : Nat)
    (nm : AttrName) (s : String) (cn : List Char)
    (hname : findAttrPair attrs "name" = some (nm, AttrValue.strLit s))
    (hcn : buildTemplateNameF fuel s.data true = some cn) :
    parseTemplate true attrs pos refIds loopIds wxses fuel =
      ParseTplResult.defn (String.mk cn) s (partitionWxs refIds wxses).2
        (pruneLoopRefs (partitionWxs refIds wxses).1 loopIds) := by
  simp [parseTemplate, hname, hcn]

/-- C5: for a template node with no `name` attribute and an `is` attribute
whose value is a string literal (directly, or a string literal inside an
expression container), `parseTemplate` replaces the node with a self-closing
element named by `buildTemplateName` of that literal, whose attribute list is
exactly the original `data` attribute when one is present and empty otherwise,
and which has no children. -/
theorem parseTemplate_is_literal (attrs : List JSXAttrEntry) (pos : Option Position)
    (refIds loopIds : List String) (wxses : List WXS) (fuel : Nat)
    (nm : AttrName) (lit : String) (cn : List Char)
    (hname : findAttrPair attrs "name" = none)
    (his : findAttrPair attrs "is" = some (nm, AttrValue.strLit lit) ∨
      findAttrPair attrs "is" = some (nm, AttrValue.exprContainer (Expr.stringLit lit)))
    (hcn : buildTemplateNameF fuel lit.data true = some cn) :
    parseTemplate true attrs pos refIds loopIds wxses fuel =
      ParseTplResult.replaced
        (JSXTree.elem (String.mk cn) (dataAttrList attrs) true none []) := by
  rcases his with h | h <;>
    simp [parseTemplate, hname, h, hcn, mkInvocationElem]

/-- Witness for C5 at a concrete node `<template is="foo" data={bar}/>`: the
node is replaced by `<FooTmpl data={bar}/>`. -/
theorem parseTemplate_is_literal_witness :
    parseTemplate true
        [JSXAttrEntry.attr (AttrName.ident "is") (AttrValue.strLit "foo"),
         JSXAttrEntry.attr (AttrName.ident "data") (AttrValue.exprContainer (Expr.identExpr "bar"))]
        none [] [] [] 1 =
      ParseTplResult.replaced
        (JSXTree.elem "FooTmpl"
          [JSXAttrEntry.attr (AttrName.ident "data") (AttrValue.exprContainer (Expr.identExpr "bar"))]
          true none []) :=
  parseTemplate_is_literal
    [JSXAttrEntry.attr (AttrName.ident "is") (AttrValue.strLit "foo"),
     JSXAttrEntry.attr (AttrName.ident "data") (AttrValue.exprContainer (Expr.identExpr "bar"))]
    none [] [] [] 1 (AttrName.ident "is") "foo" "FooTmpl".data rfl (Or.inl rfl) rfl

/-- C6: for a template node with no `name` attribute whose `is` attribute
holds a conditional expression in an expression container, `parseTemplate`
throws `TemplateIsAttributeTypeMismatchError` (carrying the node's position)
exactly when the consequent or the alternate is not a string literal; when
both are string literals it does not throw that error (the node is replaced by
the block wrapper holding the two concrete invocation candidates). -/
theorem parseTemplate_ternary (attrs : List JSXAttrEntry) (pos : Option Position)
    (refIds loopIds : List String) (wxses : List WXS) (fuel : Nat)
    (nm : AttrName) (tst csq alt : Expr)
    (hname : findAttrPair attrs "name" = none)
    (his : findAttrPair attrs "is" =
      some (nm, AttrValue.exprContainer (Expr.conditional tst csq alt))) :
    (csq.isStringLit = false ∨ alt.isStringLit = false →
      parseTemplate true attrs pos refIds loopIds wxses fuel =
        ParseTplResult.thrown "TemplateIsAttributeTypeMismatchError" (posD pos)) ∧
    (∀ cs als, csq = Expr.stringLit cs → alt = Expr.stringLit als →
      parseTemplate true attrs pos refIds loopIds wxses fuel =
        ParseTplResult.replacedTernary tst cs als (dataAttrList attrs)) := by
  constructor
  · intro hor
    cases csq <;> cases alt <;>
      simp_all [parseTemplate, hname, his, Expr.isStringLit]
  · rintro cs als rfl rfl
    simp [parseTemplate, hname, his]

/-- Witness for C6 at a concrete node
`<template is={cond ? "a" : someVar}/>`: the alternate is not a string
literal, so the type-mismatch error is thrown at the default position. -/
theorem parseTemplate_ternary_witness :
    parseTemplate true
        [JSXAttrEntry.attr (AttrName.ident "is")
          (AttrValue.exprContainer
            (Expr.conditional (Expr.identExpr "cond") (Expr.stringLit "a")
              (Expr.identExpr "someVar")))]
        none [] [] [] 1 =
      ParseTplResult.thrown "TemplateIsAttributeTypeMismatchError" ⟨0, 0⟩ :=
  (parseTemplate_ternary
    [JSXAttrEntry.attr (AttrName.ident "is")
      (AttrValue.exprContainer
        (Expr.conditional (Expr.identExpr "cond") (Expr.stringLit "a")
          (Expr.identExpr "someVar")))]
    none [] [] [] 1 (AttrName.ident "is") (Expr.identExpr "cond") (Expr.stringLit "a")
    (Expr.identExpr "someVar") rfl rfl).1 (Or.inr rfl)

/-- C10: for a template node with no `name` attribute and an `is` attribute
whose expression container holds an expression that is neither a string
literal nor a conditional (for example a plain identifier), `parseTemplate`
returns `undefined` without throwing and without replacing, removing, or
otherwise mutating the node. -/
theorem parseTemplate_expr_other (attrs : List JSXAttrEntry) (pos : Option Position)
    (refIds loopIds : List String) (wxses : List WXS) (fuel : Nat)
    (nm : AttrName) (e : Expr)
    (hname : findAttrPair attrs "name" = none)
    (his : findAttrPair attrs "is" = some (nm, AttrValue.exprContainer e))
    (hlit : e.isStringLit = false) (hcond : e.isCond = false) :
    parseTemplate true attrs pos refIds loopIds wxses fuel = ParseTplResult.noop := by
  cases e <;> simp_all [parseTemplate, hname, his, Expr.isStringLit, Expr.isCond]

/-- Witness for C10 at a concrete node `<template is={tmplName}/>`: the plain
identifier expression is left alone and `undefined` is returned. -/
theorem parseTemplate_expr_other_witness :
    parseTemplate true
        [JSXAttrEntry.attr (AttrName.ident "is")
          (AttrValue.exprContainer (Expr.identExpr "tmplName"))]
        none [] [] [] 1 = ParseTplResult.noop :=
  parseTemplate_expr_other
    [JSXAttrEntry.attr (AttrName.ident "is")
      (AttrValue.exprContainer (Expr.identExpr "tmplName"))]
    none [] [] [] 1 (AttrName.ident "is") (Expr.identExpr "tmplName") rfl rfl rfl rfl

theorem mem_addSet {α : Type} [DecidableEq α] (l : List α) (a x : α) :
    x ∈ addSet l a ↔ x ∈ l ∨ x = a := by
  unfold addSet
  by_cases h : a ∈ l
  · rw [if_pos h]
    constructor
    · exact Or.inl
    · rintro (hx | rfl)
      · exact hx
      · exact h
  · rw [if_neg h]
    simp

theorem foldl_wxsStep_fst (r : String) :
    ∀ (ws : List WXS) (st : List String × List WXS), st.1.Nodup →
      (ws.foldl (wxsStep r) st).1 =
        if ws.any (fun w => jsIncludes w.module r) then st.1.erase r else st.1 := by
  intro ws
  induction ws with
  | nil => intro st _; simp
  | cons w ws ih =>
    intro st hnd
    rw [List.foldl_cons]
    by_cases hm : jsIncludes w.module r = true
    · have h1 : wxsStep r st w = (st.1.erase r, addSet st.2 w) := by
        simp [wxsStep, hm]
      rw [h1, ih _ (hnd.erase r)]
      have hnot : r ∉ st.1.erase r := hnd.not_mem_erase
      rw [List.erase_of_not_mem hnot]
      simp [hm]
    · have h1 : wxsStep r st w = st := by simp [wxsStep, hm]
      rw [h1, ih _ hnd]
      have hm0 : jsIncludes w.module r = false := by
        cases h : jsIncludes w.module r
        · rfl
        · exact absurd h hm
      simp only [List.any_cons, hm0, Bool.false_or]

theorem foldl_wxsStep_snd (r : String) (x : WXS) :
    ∀ (ws : List WXS) (st : List String × List WXS),
      x ∈ (ws.foldl (wxsStep r) st).2 ↔
        x ∈ st.2 ∨ (x ∈ ws ∧ jsIncludes x.module r = true) := by
  intro ws
  induction ws with
  | nil => intro st; simp
  | cons w ws ih =>
    intro st
    rw [List.foldl_cons]
    by_cases hm : jsIncludes w.module r = true
    · have h1 : wxsStep r st w = (st.1.erase r, addSet st.2 w) := by
        simp [wxsStep, hm]
      rw [h1, ih]
      simp only [mem_addSet, List.mem_cons]
      constructor
      · rintro ((hx | rfl) | ⟨hw, hmm⟩)
        · exact Or.inl hx
        · exact Or.inr ⟨Or.inl rfl, hm⟩
        · exact Or.inr ⟨Or.inr hw, hmm⟩
      · rintro (hx | ⟨rfl | hw, hmm⟩)
        · exact Or.inl (Or.inl hx)
        · exact Or.inl (Or.inr rfl)
        · exact Or.inr ⟨hw, hmm⟩
    · have h1 : wxsStep r st w = st := by simp [wxsStep, hm]
      rw [h1, ih]
      simp only [List.mem_cons]
      constructor
      · rintro (hx | ⟨hw, hmm⟩)
        · exact Or.inl hx
        · exact Or.inr ⟨Or.inr hw, hmm⟩
      · rintro (hx | ⟨rfl | hw, hmm⟩)
        · exact Or.inl hx
        · exact absurd hmm hm
        · exact Or.inr ⟨hw, hmm⟩

theorem foldl_condErase_nodup (q : String → Bool) :
    ∀ (rs cur : List String), cur.Nodup →
      (rs.foldl (fun cur r => if q r then cur.erase r else cur) cur).Nodup := by
  intro rs
  induction rs with
  | nil => intro cur h; exact h
  | cons r rs ih =>
    intro cur hnd
    rw [List.foldl_cons]
    by_cases hq : q r = true
    · rw [if_pos hq]; exact ih _ (hnd.erase r)
    · rw [if_neg (by simp [hq])]; exact ih _ hnd

theorem foldl_condErase_mem (q : String → Bool) :
    ∀ (rs cur : List String), cur.Nodup → ∀ x,
      (x ∈ rs.foldl (fun cur r => if q r then cur.erase r else cur) cur ↔
        x ∈ cur ∧ ¬(x ∈ rs ∧ q x = true)) := by
  intro rs
  induction rs with
  | nil => intro cur _ x; simp
  | cons r rs ih =>
    intro cur hnd x
    rw [List.foldl_cons]
    by_cases hq : q r = true
    · rw [if_pos hq, ih _ (hnd.erase r) x, hnd.mem_erase_iff]
      by_cases hx : x = r
      · subst hx
        simp [hq]
      · simp only [List.mem_cons]
        constructor
        · rintro ⟨⟨_, hxc⟩, hno⟩
          exact ⟨hxc, by rintro ⟨rfl | hmem, hqx⟩; exact hx rfl; exact hno ⟨hmem, hqx⟩⟩
        · rintro ⟨hxc, hno⟩
          exact ⟨⟨hx, hxc⟩, fun ⟨hmem, hqx⟩ => hno ⟨Or.inr hmem, hqx⟩⟩
    · rw [if_neg (by simp [hq]), ih _ hnd x]
      simp only [List.mem_cons]
      constructor
      · rintro ⟨hxc, hno⟩
        refine ⟨hxc, ?_⟩
        rintro ⟨rfl | hmem, hqx⟩
        · exact hq hqx
        · exact hno ⟨hmem, hqx⟩
      · rintro ⟨hxc, hno⟩
        exact ⟨hxc, fun ⟨hmem, hqx⟩ => hno ⟨Or.inr hmem, hqx⟩⟩

theorem partitionWxs_fst_eq (wxses : List WXS) :
    ∀ (rs : List String) (st : List String × List WXS), st.1.Nodup →
      (rs.foldl (fun st r => wxses.foldl (wxsStep r) st) st).1 =
        rs.foldl
          (fun cur r => if wxses.any (fun w => jsIncludes w.module r) then cur.erase r else cur)
          st.1 := by
  intro rs
  induction rs with
  | nil => intro st _; rfl
  | cons r rs ih =>
    intro st hnd
    rw [List.foldl_cons, List.foldl_cons]
    have hfst := foldl_wxsStep_fst r wxses st hnd
    have hnd2 : (wxses.foldl (wxsStep r) st).1.Nodup := by
      rw [hfst]
      by_cases hq : wxses.any (fun w => jsIncludes w.module r) = true
      · rw [if_pos hq]; exact hnd.erase r
      · rw [if_neg (by simp [hq])]; exact hnd
    rw [ih _ hnd2, hfst]

theorem partitionWxs_fst_nodup (refIds : List String) (wxses : List WXS)
    (hnd : refIds.Nodup) : (partitionWxs refIds wxses).1.Nodup := by
  unfold partitionWxs
  rw [partitionWxs_fst_eq wxses refIds (refIds, []) hnd]
  exact foldl_condErase_nodup _ refIds refIds hnd

theorem partitionWxs_fst_mem (refIds : List String) (wxses : List WXS)
    (hnd : refIds.Nodup) (x : String) :
    x ∈ (partitionWxs refIds wxses).1 ↔
      x ∈ refIds ∧ wxses.any (fun w => jsIncludes w.module x) = false := by
  unfold partitionWxs
  rw [partitionWxs_fst_eq wxses refIds (refIds, []) hnd,
    foldl_condErase_mem _ refIds refIds hnd x]
  constructor
  · rintro ⟨hmem, hno⟩
    refine ⟨hmem, ?_⟩
    cases hq : wxses.any (fun w => jsIncludes w.module x)
    · rfl
    · exact absurd ⟨hmem, hq⟩ hno
  · rintro ⟨hmem, hq⟩
    exact ⟨hmem, by rintro ⟨_, hq2⟩; rw [hq] at hq2; cases hq2⟩

theorem partitionWxs_snd_mem (refIds : List String) (wxses : List WXS) (x : WXS) :
    x ∈ (partitionWxs refIds wxses).2 ↔
      x ∈ wxses ∧ ∃ r ∈ refIds, jsIncludes x.module r = true := by
  unfold partitionWxs
  have key : ∀ (rs : List String) (st : List String × List WXS),
      x ∈ (rs.foldl (fun st r => wxses.foldl (wxsStep r) st) st).2 ↔
        x ∈ st.2 ∨ (x ∈ wxses ∧ ∃ r ∈ rs, jsIncludes x.module r = true) := by
    intro rs
    induction rs with
    | nil => intro st; simp
    | cons r rs ih =>
      intro st
      rw [List.foldl_cons, ih, foldl_wxsStep_snd]
      simp only [List.mem_cons]
      constructor
      · rintro ((hx | ⟨hw, hm⟩) | ⟨hw, r2, hr2, hm⟩)
        · exact Or.inl hx
        · exact Or.inr ⟨hw, r, Or.inl rfl, hm⟩
        · exact Or.inr ⟨hw, r2, Or.inr hr2, hm⟩
      · rintro (hx | ⟨hw, r2, rfl | hr2, hm⟩)
        · exact Or.inl (Or.inl hx)
        · exact Or.inl (Or.inr ⟨hw, hm⟩)
        · exact Or.inr ⟨hw, r2, hr2, hm⟩
  rw [key refIds (refIds, [])]
  simp

theorem pruneLoopRefs_loop_mem (refIds loopIds : List String) (x : String)
    (hx : x ∈ pruneLoopRefs refIds loopIds) (hl : loopIds.contains x = true) :
    refIds.head? = some x := by
  cases refIds with
  | nil => simp [pruneLoopRefs] at hx
  | cons first rest =>
    simp only [pruneLoopRefs] at hx
    rw [List.mem_filter] at hx
    obtain ⟨_, hpred⟩ := hx
    rw [hl] at hpred
    simp only [Bool.true_and, Bool.not_eq_true', bne_eq_false_iff_eq] at hpred
    subst hpred
    rfl

theorem length_le_one_of_all_eq (a : String) {l : List String} (hnd : l.Nodup)
    (h : ∀ x ∈ l, x = a) : l.length ≤ 1 := by
  match l, hnd with
  | [], _ => simp
  | [x], _ => simp
  | x :: y :: t, hnd =>
    exfalso
    have hx := h x (by simp)
    have hy := h y (by simp)
    have hxy : x = y := by rw [hx, hy]
    rw [List.nodup_cons] at hnd
    exact hnd.1 (by rw [hxy]; exact List.mem_cons_self y t)

theorem pruneLoopRefs_inter_le_one (refIds loopIds : List String) (hnd : refIds.Nodup) :
    ((pruneLoopRefs refIds loopIds).filter fun id => loopIds.contains id).length ≤ 1 := by
  cases refIds with
  | nil => simp [pruneLoopRefs]
  | cons first rest =>
    apply length_le_one_of_all_eq first
    · have hp : (pruneLoopRefs (first :: rest) loopIds).Nodup := by
        simp only [pruneLoopRefs]
        exact hnd.filter _
      exact hp.filter _
    · intro x hx
      rw [List.mem_filter] at hx
      have h2 := pruneLoopRefs_loop_mem (first :: rest) loopIds x hx.1 hx.2
      simpa using h2.symm

theorem pruneLoopRefs_ne_nil (refIds loopIds : List String) (h : refIds ≠ []) :
    pruneLoopRefs refIds loopIds ≠ [] := by
  cases refIds with
  | nil => exact absurd rfl h
  | cons first rest =>
    simp only [pruneLoopRefs]
    intro hcon
    have hfirst : first ∈
        List.filter (fun id => !(loopIds.contains id && id != first)) (first :: rest) := by
      rw [List.mem_filter]
      exact ⟨List.mem_cons_self _ _, by simp⟩
    rw [hcon] at hfirst
    simp at hfirst

/-- C3: in definition mode, after the WXS partition and the loop pruning, the
intersection of the surviving reference set with the loop-identifier set has
size at most one; every surviving reference that is a loop identifier is the
first element (in set-iteration order) of the reference set that entered the
pruning; and when that set is nonempty and every reference in it is
loop-local, at least one reference is retained. -/
theorem parseTemplate_defn_loop_invariant (attrs : List JSXAttrEntry) (pos : Option Position)
    (refIds loopIds : List String) (wxses : List WXS) (fuel : Nat)
    (nm : AttrName) (s : String) (cn0 : List Char) (cn tn : String)
    (uw : List WXS) (rs : List String)
    (hnd : refIds.Nodup)
    (hname : findAttrPair attrs "name" = some (nm, AttrValue.strLit s))
    (hcn : buildTemplateNameF fuel s.data true = some cn0)
    (heq : parseTemplate true attrs pos refIds loopIds wxses fuel =
      ParseTplResult.defn cn tn uw rs) :
    ((rs.filter fun id => loopIds.contains id).length ≤ 1) ∧
    (∀ id ∈ rs, loopIds.contains id = true →
      (partitionWxs refIds wxses).1.head? = some id) ∧
    ((partitionWxs refIds wxses).1 ≠ [] →
      (∀ id ∈ (partitionWxs refIds wxses).1, loopIds.contains id = true) → rs ≠ []) := by
  rw [parseTemplate_defn_eq attrs pos refIds loopIds wxses fuel nm s cn0 hname hcn] at heq
  injection heq with h1 h2 h3 h4
  subst h4
  have hndp : (partitionWxs refIds wxses).1.Nodup := partitionWxs_fst_nodup refIds wxses hnd
  refine ⟨pruneLoopRefs_inter_le_one _ _ hndp, ?_, ?_⟩
  · intro id hid hc
    exact pruneLoopRefs_loop_mem _ _ _ hid hc
  · intro hne _
    exact pruneLoopRefs_ne_nil _ _ hne

/-- Witness for C3 at refIds `{"a","b"}`, loopIds `{"b"}`, no WXS modules:
the pruned reference set is `{"a"}` and all three conjuncts hold. -/
theorem parseTemplate_defn_loop_invariant_witness :
    ((["a"].filter fun id => ["b"].contains id).length ≤ 1) ∧
    (∀ id ∈ ["a"], ["b"].contains id = true →
      (partitionWxs ["a", "b"] []).1.head? = some id) ∧
    ((partitionWxs ["a", "b"] []).1 ≠ [] →
      (∀ id ∈ (partitionWxs ["a", "b"] []).1, ["b"].contains id = true) →
      (["a"] : List String) ≠ []) :=
  parseTemplate_defn_loop_invariant
    [JSXAttrEntry.attr (AttrName.ident "name") (AttrValue.strLit "foo")] none
    ["a", "b"] ["b"] [] 1 (AttrName.ident "name") "foo" "FooTmpl".data "FooTmpl" "foo" [] ["a"]
    (by decide) rfl rfl rfl

/-- C4: in definition mode, a module is added to the `usedWxses` result and a
reference is deleted from the reference set exactly according to the textual
match `wxsId.module.includes(refId)` (the reference occurs as a substring of
the module's declared name): any matching pair puts the module into
`usedWxses` and removes the reference; a reference matching no registered
module survives the partition; and every module in `usedWxses` is a
registered module matched by some collected reference. -/
theorem parseTemplate_defn_wxs_partition (attrs : List JSXAttrEntry) (pos : Option Position)
    (refIds loopIds : List String) (wxses : List WXS) (fuel : Nat)
    (nm : AttrName) (s : String) (cn0 : List Char) (cn tn : String)
    (uw : List WXS) (rs : List String)
    (hnd : refIds.Nodup)
    (hname : findAttrPair attrs "name" = some (nm, AttrValue.strLit s))
    (hcn : buildTemplateNameF fuel s.data true = some cn0)
    (heq : parseTemplate true attrs pos refIds loopIds wxses fuel =
      ParseTplResult.defn cn tn uw rs) :
    (∀ w ∈ wxses, ∀ r ∈ refIds, jsIncludes w.module r = true →
      w ∈ uw ∧ r ∉ (partitionWxs refIds wxses).1) ∧
    (∀ r ∈ refIds, (∀ w ∈ wxses, jsIncludes w.module r = false) →
      r ∈ (partitionWxs refIds wxses).1) ∧
    (∀ w ∈ uw, w ∈ wxses ∧ ∃ r ∈ refIds, jsIncludes w.module r = true) := by
  rw [parseTemplate_defn_eq attrs pos refIds loopIds wxses fuel nm s cn0 hname hcn] at heq
  injection heq with h1 h2 h3 h4
  subst h3
  refine ⟨?_, ?_, ?_⟩
  · intro w hw r hr hm
    refine ⟨(partitionWxs_snd_mem refIds wxses w).mpr ⟨hw, r, hr, hm⟩, ?_⟩
    intro hcontra
    rw [partitionWxs_fst_mem refIds wxses hnd r] at hcontra
    rw [List.any_eq_false] at hcontra
    exact absurd hm (hcontra.2 w hw)
  · intro r hr hall
    rw [partitionWxs_fst_mem refIds wxses hnd r, List.any_eq_false]
    refine ⟨hr, ?_⟩
    intro w hw
    rw [hall w hw]
    simp
  · intro w hw
    exact (partitionWxs_snd_mem refIds wxses w).mp hw

/-- Witness for C4 with refIds `{"utils","x"}` and one registered module
named `"utils"`: the reference `"utils"` is moved out, `"x"` survives. -/
theorem parseTemplate_defn_wxs_partition_witness :
    (∀ w ∈ [WXS.mk "utils" "./u.wxs"], ∀ r ∈ ["utils", "x"],
      jsIncludes w.module r = true →
      w ∈ [WXS.mk "utils" "./u.wxs"] ∧
        r ∉ (partitionWxs ["utils", "x"] [WXS.mk "utils" "./u.wxs"]).1) ∧
    (∀ r ∈ ["utils", "x"],
      (∀ w ∈ [WXS.mk "utils" "./u.wxs"], jsIncludes w.module r = false) →
      r ∈ (partitionWxs ["utils", "x"] [WXS.mk "utils" "./u.wxs"]).1) ∧
    (∀ w ∈ [WXS.mk "utils" "./u.wxs"], w ∈ [WXS.mk "utils" "./u.wxs"] ∧
      ∃ r ∈ ["utils", "x"], jsIncludes w.module r = true) :=
  parseTemplate_defn_wxs_partition
    [JSXAttrEntry.attr (AttrName.ident "name") (AttrValue.strLit "foo")] none
    ["utils", "x"] [] [WXS.mk "utils" "./u.wxs"] 1 (AttrName.ident "name") "foo"
    "FooTmpl".data "FooTmpl" "foo" [WXS.mk "utils" "./u.wxs"] ["x"]
    (by decide) rfl rfl rfl

/-- Models node `path.join` for the simple concatenation case exercised here:
the two segments are joined with a slash. -/
def joinPath (a b : String) : String :=
  if a = "" then b else if b = "" then a else a ++ "/" ++ b

/-- Splits a character list on `/` separators (helper for the path models). -/
def splitOnSlash : List Char → List (List Char)
  | [] => [[]]
  | c :: t =>
    match splitOnSlash t with
    | [] => [[]]
    | w :: ws => if c = '/' then [] :: w :: ws else (c :: w) :: ws

/-- Joins path segments back with `/` separators. -/
def interSlash : List (List Char) → List Char
  | [] => []
  | [w] => w
  | w :: ws => w ++ '/' :: interSlash ws

/-- Models node `path.extname` for slash-separated paths: the part of the last
path segment from its final dot, empty when the segment has no dot or only a
leading dot. -/
def extname (p : String) : String :=
  let base := (splitOnSlash p.data).getLastD []
  let rev := base.reverse
  let ext := rev.takeWhile fun c => c != '.'
  if ext.length = rev.length then ""
  else if ext.length + 1 = rev.length then ""
  else String.mk ('.' :: ext.reverse)

/-- Models node `path.dirname` for slash-separated paths. -/
def dirname (p : String) : String :=
  match (splitOnSlash p.data).dropLast with
  | [] => "."
  | parts => String.mk (interSlash parts)

/-- The test `srcPath.startsWith('/')`. -/
def startsWithSlash (s : String) : Bool :=
  match s.data with
  | '/' :: _ => true
  | _ => false

/-- The slice `srcPath.substr(1)`. -/
def dropFirst (s : String) : String := String.mk (s.data.drop 1)

/-- Models node `path.resolve` for the use made here: joining a directory with
a relative path. -/
def resolvePath (dir p : String) : String := joinPath dir p

/-- Modelled from the spec: the ambient collaborators of the path resolver —
the configured project root `setting.rootPath` (imported from `./utils`, not
among the sources), the synchronous existence check `fs.existsSync`, and node
`path.relative`. -/
structure PathEnv where
  rootPath : String
  existsSync : String → Bool
  relative : String → String → String

/-- The backslash normalization `relativePath.replace(/\\/g, '/')`. -/
def replaceBackslash (s : String) : String :=
  String.mk (s.data.map fun c => if c = '\\' then '/' else c)

/-- Model of `getSrcRelPath(dirPath, srcPath)`. A thrown `Error` is an
`Except.error` carrying the message. -/
def getSrcRelPath (env : PathEnv) (dirPath srcPath : String) : Except String String :=
  if startsWithSlash srcPath then
    let absolutPath := joinPath env.rootPath (dropFirst srcPath)
    if !env.existsSync absolutPath && !env.existsSync (absolutPath ++ ".wxml") then
      Except.error ("import/include 的 src 请填入正确路径再进行转换：src=\"" ++ srcPath ++ "\"")
    else
      let relativePath := replaceBackslash (env.relative dirPath absolutPath)
      if relativePath.data.head? ≠ some '.' then Except.ok ("./" ++ relativePath)
      else Except.ok relativePath
  else Except.ok srcPath

theorem ite_ok_ne_error {p : Prop} [Decidable p] (x y msg : String) :
    (if p then Except.ok x else Except.ok y) ≠ (Except.error msg : Except String String) := by
  by_cases h : p
  · rw [if_pos h]
    intro hcon
    cases hcon
  · rw [if_neg h]
    intro hcon
    cases hcon

/-- C8: `getSrcRelPath` fails exactly when `srcPath` starts with `/` and
neither the target resolved under the configured project root nor that target
with `.wxml` appended exists; when `srcPath` does not start with `/`, it is
returned unchanged (for every environment, hence with no existence check). -/
theorem getSrcRelPath_spec (env : PathEnv) (dirPath srcPath : String) :
    ((∃ msg, getSrcRelPath env dirPath srcPath = Except.error msg) ↔
      (startsWithSlash srcPath = true ∧
        env.existsSync (joinPath env.rootPath (dropFirst srcPath)) = false ∧
        env.existsSync (joinPath env.rootPath (dropFirst srcPath) ++ ".wxml") = false)) ∧
    (startsWithSlash srcPath = false →
      getSrcRelPath env dirPath srcPath = Except.ok srcPath) := by
  constructor
  · cases hs : startsWithSlash srcPath with
    | false =>
      simp [getSrcRelPath, hs]
    | true =>
      cases he1 : env.existsSync (joinPath env.rootPath (dropFirst srcPath)) with
      | false =>
        cases he2 : env.existsSync (joinPath env.rootPath (dropFirst srcPath) ++ ".wxml") with
        | false => simp [getSrcRelPath, hs, he1, he2]
        | true =>
          simp only [getSrcRelPath, hs, he1, he2, Bool.not_false, Bool.not_true,
            Bool.and_false, Bool.false_eq_true, if_false, if_true]
          constructor
          · rintro ⟨msg, hmsg⟩
            exact absurd hmsg (ite_ok_ne_error _ _ _)
          · rintro ⟨_, _, h2⟩
            cases h2
      | true =>
        simp only [getSrcRelPath, hs, he1, Bool.not_true, Bool.false_and,
          Bool.false_eq_true, if_false, if_true]
        constructor
        · rintro ⟨msg, hmsg⟩
          exact absurd hmsg (ite_ok_ne_error _ _ _)
        · rintro ⟨_, h1, _⟩
          cases h1
  · intro hs
    simp [getSrcRelPath, hs]

/-- Witness for C8: with a root where nothing exists, the absolute source
`"/x"` fails, and a relative source is returned unchanged. -/
theorem getSrcRelPath_spec_witness :
    ((∃ msg, getSrcRelPath (PathEnv.mk "root" (fun _ => false) (fun _ _ => "")) "/a/b" "/x" =
        Except.error msg) ↔
      (startsWithSlash "/x" = true ∧
        (fun _ => false : String → Bool) (joinPath "root" (dropFirst "/x")) = false ∧
        (fun _ => false : String → Bool) (joinPath "root" (dropFirst "/x") ++ ".wxml") = false)) ∧
    (startsWithSlash "/x" = false →
      getSrcRelPath (PathEnv.mk "root" (fun _ => false) (fun _ _ => "")) "/a/b" "/x" =
        Except.ok "/x") :=
  getSrcRelPath_spec (PathEnv.mk "root" (fun _ => false) (fun _ _ => "")) "/a/b" "/x"

/-- The file path computed by `getWxmlSource`: `join(dirPath, src)`, with
`.wxml` appended when the result has no extension. -/
def wxmlFilePath (dirPath src : String) : String :=
  let filePath := joinPath dirPath src
  if extname filePath = "" then filePath ++ ".wxml" else filePath

/-- Modelled from the spec: the external collaborators of the module importer —
the synchronous file reader (`fs` from an external helper package) and the
markup parser (`parseWXML` from `./wxml`), neither of which is among the
sources. `fs` maps a path to its contents, `none` when reading throws;
`parseWXML path text` returns the collected import records together with the
optional root node of the parsed markup, per the spec interface
`parse(path, sourceText, isModule) -> {wxml: RootNode, imports: ImportRecord[]}`. -/
structure WxmlEnv (ι : Type) where
  fs : String → Option String
  parseWXML : String → String → List ι × Option JSXTree

/-- The diagnostic pushed into the `errors` sink when an `import`/`include`
target cannot be read. -/
def wxmlNotFoundMsg (ty src : String) : String :=
  "找不到这个路径的 wxml: <" ++ ty ++ " src=\"" ++ src ++ "\" />，该标签将会被忽略掉"

/-- Model of `getWxmlSource(dirPath, src, type)`. The ambient `errors` array
is threaded explicitly: the result pairs the returned source text with the
updated error sink. On read failure the diagnostic is appended and the empty
string is returned, exactly as in the `catch` branch. -/
def getWxmlSource {ι : Type} (env : WxmlEnv ι) (errs : List String)
    (dirPath src ty : String) : String × List String :=
  match env.fs (wxmlFilePath dirPath src) with
  | some file => (file, errs)
  | none => ("", errs ++ [wxmlNotFoundMsg ty src])

/-- The directory adjustment at the top of `parseModule`:
`if (extname(dirPath)) dirPath = dirname(dirPath)`. -/
def moduleDir (dirPath : String) : String :=
  if extname dirPath ≠ "" then dirname dirPath else dirPath

/-- The two call modes of `parseModule`. -/
inductive ModuleType where
  | imp
  | inc
deriving DecidableEq

/-- Outcome of `parseModule`. `importsResult` is the `import` mode: the tag is
removed and the collected records are returned together with the updated error
sink; the three `include...` outcomes describe the `include` mode (tag removed
on empty content, replaced by the parsed root, or replaced by an empty block
wrapper); `thrown` is an `IReportError` with the given error-kind tag. -/
inductive ParseModuleResult (ι : Type) where
  | thrown (errName : String) (pos : Position) (errs : List String)
  | importsResult (records : List ι) (errs : List String)
  | includeRemoved (errs : List String)
  | includeReplaced (node : JSXTree) (errs : List String)
  | includeEmptyBlock (errs : List String)

/-- Model of `parseModule(jsx, dirPath, type)`. `attrs` and `pos` are the
node's opening-element attributes and source position; the `errors` sink is
threaded explicitly. -/
def parseModule {ι : Type} (env : WxmlEnv ι) (penv : PathEnv) (errs : List String)
    (attrs : List JSXAttrEntry) (pos : Option Position) (dirPath : String)
    (ty : ModuleType) : ParseModuleResult ι :=
  match findAttrPair attrs "src" with
  | none => .thrown "WxmlTagSrcAttributeError" (posD pos) errs
  | some (_, v) =>
    let dir := moduleDir dirPath
    match v with
    | AttrValue.strLit srcValue0 =>
      match getSrcRelPath penv dir srcValue0 with
      | Except.error _ => .thrown "ImportSrcPathFormatError" (posD pos) errs
      | Except.ok srcValue =>
        match ty with
        | ModuleType.imp =>
          let res := getWxmlSource env errs dir srcValue "import"
          .importsResult (env.parseWXML (resolvePath dir srcValue) res.1).1 res.2
        | ModuleType.inc =>
          let res := getWxmlSource env errs dir srcValue "include"
          if res.1 = "" then .includeRemoved res.2
          else
            match (env.parseWXML (resolvePath dir srcValue) res.1).2 with
            | some wxml => .includeReplaced wxml res.2
            | none => .includeEmptyBlock res.2
    | _ => .thrown "WxmlTagSrcAttributeError" (posD pos) errs

/-- C7: for an `import` tag whose resolved target file cannot be read,
`parseModule` does not throw: the not-found diagnostic is appended to the
error sink, the source text is substituted by the empty string, the tag is
removed, and — since parsing the empty source yields no import records — no
records are produced. -/
theorem parseModule_import_missing_file {ι : Type} (env : WxmlEnv ι) (penv : PathEnv)
    (errs : List String) (attrs : List JSXAttrEntry) (pos : Option Position)
    (dirPath : String) (nm : AttrName) (srcValue srcRel : String)
    (hwf : ∀ p, (env.parseWXML p "").1 = [])
    (hsrc : findAttrPair attrs "src" = some (nm, AttrValue.strLit srcValue))
    (hrel : getSrcRelPath penv (moduleDir dirPath) srcValue = Except.ok srcRel)
    (hread : env.fs (wxmlFilePath (moduleDir dirPath) srcRel) = none) :
    parseModule env penv errs attrs pos dirPath ModuleType.imp =
      ParseModuleResult.importsResult []
        (errs ++ [wxmlNotFoundMsg "import" srcRel]) := by
  simp only [parseModule, hsrc, hrel, getWxmlSource, hread, hwf]

/-- Witness for C7: a file system on which every read fails and a parser
returning no records on any input; the `import` of `"foo"` degrades to an
empty record list plus one diagnostic. -/
theorem parseModule_import_missing_file_witness :
    parseModule (WxmlEnv.mk (fun _ => none) (fun _ _ => (([] : List Nat), none)))
        (PathEnv.mk "" (fun _ => false) (fun _ _ => "")) []
        [JSXAttrEntry.attr (AttrName.ident "src") (AttrValue.strLit "foo")]
        none "dir" ModuleType.imp =
      ParseModuleResult.importsResult ([] : List Nat) [wxmlNotFoundMsg "import" "foo"] :=
  parseModule_import_missing_file
    (WxmlEnv.mk (fun _ => none) (fun _ _ => (([] : List Nat), none)))
    (PathEnv.mk "" (fun _ => false) (fun _ _ => "")) []
    [JSXAttrEntry.attr (AttrName.ident "src") (AttrValue.strLit "foo")]
    none "dir" (AttrName.ident "src") "foo" "foo" (fun _ => rfl) rfl (by rfl) rfl

/-- The `JSXAttribute` visitor of `preParseTemplate`: an attribute whose value
is an expression container holding `this.<identifier>` contributes the
identifier to the collected template functions. -/
def funcsOfAttr : JSXAttrEntry → Option String
  | JSXAttrEntry.attr _ (AttrValue.exprContainer (Expr.thisMember f)) => some f
  | _ => none

mutual
/-- Collects, in traversal order, the `this.<identifier>` attribute values of
a subtree (the `JSXAttribute` visitor of `preParseTemplate`; the traversal
visits the root's own opening element, hence its attributes, first). -/
def funcsOfTree : JSXTree → List String
  | JSXTree.elem _ attrs _ _ children => attrs.filterMap funcsOfAttr ++ funcsOfForest children
  | _ => []

/-- Collects the template functions of a list of children, left to right. -/
def funcsOfForest : List JSXTree → List String
  | [] => []
  | t :: ts => funcsOfTree t ++ funcsOfForest ts
end

/-- The failure modes of the `JSXOpeningElement` visitor of
`preParseTemplate`: an `is` attribute with an empty value throws
`TemplateIsAttributeEmptyError`, and the embedded `buildTemplateName`
recursion may run out of fuel. -/
inductive PreErr where
  | emptyIs (pos : Position)
  | fuelExhausted
deriving DecidableEq

mutual
/-- The `JSXOpeningElement` visitor of `preParseTemplate`, in traversal order:
for each element, a missing `is` attribute contributes nothing, an empty `is`
value throws, and a string-literal `is` value contributes
`buildTemplateName(value)` to the collected applies. -/
def appliesOfTree (fuel : Nat) : JSXTree → Except PreErr (List String)
  | JSXTree.elem _ attrs _ pos children =>
    match findAttrPair attrs "is" with
    | some (_, AttrValue.null) => Except.error (PreErr.emptyIs (posD pos))
    | some (_, AttrValue.strLit v) =>
      match buildTemplateNameF fuel v.data true with
      | none => Except.error PreErr.fuelExhausted
      | some cn =>
        match appliesOfForest fuel children with
        | Except.error e => Except.error e
        | Except.ok rest => Except.ok (String.mk cn :: rest)
    | _ =>
      match appliesOfForest fuel children with
      | Except.error e => Except.error e
      | Except.ok rest => Except.ok rest
  | _ => Except.ok []

/-- Collects the applies of a list of children, left to right. -/
def appliesOfForest (fuel : Nat) : List JSXTree → Except PreErr (List String)
  | [] => Except.ok []
  | t :: ts =>
    match appliesOfTree fuel t with
    | Except.error e => Except.error e
    | Except.ok a =>
      match appliesOfForest fuel ts with
      | Except.error e => Except.error e
      | Except.ok b => Except.ok (a ++ b)
end

/-- JS `Set` built by repeated `add`: deduplication keeping the first
occurrence, in insertion order. -/
def dedupFirst (l : List String) : List String := l.foldl addSet []

/-- Outcome of `preParseTemplate`: `undefResult` models returning `undefined`,
`okResult` the returned `{name, funcs, applies}` record, `thrown` an
`IReportError`, and `fuelExhausted` exhaustion of the fuel of the embedded
`buildTemplateName` recursion. -/
inductive PreParseResult where
  | undefResult
  | thrown (errName : String) (pos : Position)
  | okResult (name : String) (funcs : List String) (applies : List String)
  | fuelExhausted

/-- Model of `preParseTemplate(path)`. `hasContainer` models
`path.container`; the node (always a `JSXElement` by typing) carries its
attributes, position and children, and the traversal of its subtree includes
its own opening element. -/
def preParseTemplate (hasContainer : Bool) (fuel : Nat) (node : JSXTree) : PreParseResult :=
  if !hasContainer then .undefResult
  else
    match node with
    | JSXTree.elem _ attrs _ pos _ =>
      match findAttrPair attrs "name" with
      | none => .undefResult
      | some (_, v) =>
        match v with
        | AttrValue.strLit nameVal =>
          match buildTemplateNameF fuel nameVal.data true with
          | none => .fuelExhausted
          | some templateName =>
            match appliesOfTree fuel node with
            | Except.error (PreErr.emptyIs p) => .thrown "TemplateIsAttributeEmptyError" p
            | Except.error PreErr.fuelExhausted => .fuelExhausted
            | Except.ok applies =>
              .okResult (String.mk templateName) (dedupFirst (funcsOfTree node))
                (dedupFirst applies)
        | _ => .thrown "TemplateNameTypeMismatchError" (posD pos)
    | _ => .undefResult

/-- C9 counterexample: a template node that has a parent container but no
`name` attribute makes `preParseTemplate` return `undefined` instead of
throwing `TemplateNameTypeMismatchError`, refuting "it returns undefined only
when the node has no parent container". -/
theorem preParseTemplate_no_name_undef :
    preParseTemplate true 1 (JSXTree.elem "template" [] false none []) =
      PreParseResult.undefResult := rfl

/-- C9 (amended): `preParseTemplate` returns `undefined` when the node has no
parent container or when no `name` attribute is found; when a `name` attribute
is present, it throws `TemplateNameTypeMismatchError` (carrying a source
position) exactly if the attribute's value is not a string literal. -/
theorem preParseTemplate_name_check (hasC : Bool) (fuel : Nat) (tag : String)
    (attrs : List JSXAttrEntry) (sc : Bool) (pos : Option Position)
    (children : List JSXTree) (nm : AttrName) (v : AttrValue) :
    (hasC = false →
      preParseTemplate hasC fuel (JSXTree.elem tag attrs sc pos children) =
        PreParseResult.undefResult) ∧
    (findAttrPair attrs "name" = none →
      preParseTemplate true fuel (JSXTree.elem tag attrs sc pos children) =
        PreParseResult.undefResult) ∧
    (findAttrPair attrs "name" = some (nm, v) → v.isStrLit = false →
      preParseTemplate true fuel (JSXTree.elem tag attrs sc pos children) =
        PreParseResult.thrown "TemplateNameTypeMismatchError" (posD pos)) ∧
    (findAttrPair attrs "name" = some (nm, v) → v.isStrLit = true →
      ∀ p, preParseTemplate true fuel (JSXTree.elem tag attrs sc pos children) ≠
        PreParseResult.thrown "TemplateNameTypeMismatchError" p) := by
  refine ⟨?_, ?_, ?_, ?_⟩
  · rintro rfl
    rfl
  · intro h
    simp [preParseTemplate, h]
  · intro h hv
    cases v <;> simp_all [preParseTemplate, AttrValue.isStrLit]
  · intro h hv p
    cases v with
    | strLit s =>
      simp only [preParseTemplate, h, Bool.not_true, Bool.false_eq_true, if_false]
      cases hF : buildTemplateNameF fuel s.data true with
      | none => intro hcon; cases hcon
      | some cn =>
        cases hA : appliesOfTree fuel (JSXTree.elem tag attrs sc pos children) with
        | error e =>
          cases e with
          | emptyIs q =>
            intro hcon
            rw [PreParseResult.thrown.injEq] at hcon
            exact absurd hcon.1 (by decide)
          | fuelExhausted => intro hcon; cases hcon
        | ok applies => intro hcon; cases hcon
    | null => simp [AttrValue.isStrLit] at hv
    | exprContainer e => simp [AttrValue.isStrLit] at hv
    | elementVal => simp [AttrValue.isStrLit] at hv

/-- Witness for C9 (amended) at a concrete node with a container and a
`name={expr}` attribute: the type-mismatch error is thrown. -/
theorem preParseTemplate_name_check_witness :
    preParseTemplate true 1
        (JSXTree.elem "template"
          [JSXAttrEntry.attr (AttrName.ident "name")
            (AttrValue.exprContainer (Expr.identExpr "x"))]
          false none []) =
      PreParseResult.thrown "TemplateNameTypeMismatchError" ⟨0, 0⟩ :=
  (preParseTemplate_name_check true 1 "template"
    [JSXAttrEntry.attr (AttrName.ident "name")
      (AttrValue.exprContainer (Expr.identExpr "x"))]
    false none [] (AttrName.ident "name")
    (AttrValue.exprContainer (Expr.identExpr "x"))).2.2.1 rfl rfl
